import Mathlib

/- A shallow embedding of the request handler of api/proxy.js: a CORS relay
   that validates a caller-supplied target URL, builds filtered upstream
   request headers, executes the upstream request and relays the upstream
   response with cross-origin headers attached.

   JavaScript objects holding headers are modelled as insertion-ordered
   association lists over exact (case-sensitive) string keys, matching the
   semantics of JS property access, assignment and deletion. Runtime
   primitives that the handler calls (the WHATWG URL constructor, Buffer
   base64 decoding, JSON.parse, fetch) are not part of the repository and
   are modelled from their documented behaviour where the handler depends
   on them; each such definition is marked. -/

/-- A JS object used as a string-to-string map, e.g. req.headers or the
upstreamHeaders object built by the handler. -/
abbrev Obj := List (String × String)

/-- JS property read (obj[k]): the binding of the exact key, if any. -/
def hGet : Obj → String → Option String
  | [], _ => none
  | (k, v) :: t, q => if k = q then some v else hGet t q

/-- JS property write (obj[k] = v): replace the binding in place when the
exact key is present, otherwise append a new binding. -/
def hSet : Obj → String → String → Obj
  | [], q, v => [(q, v)]
  | (k, w) :: t, q, v => if k = q then (q, v) :: t else (k, w) :: hSet t q v

/-- JS delete obj[k]: remove the binding of the exact key. -/
def hDel : Obj → String → Obj
  | [], _ => []
  | (k, w) :: t, q => if k = q then hDel t q else (k, w) :: hDel t q

/-- Whether the exact key is bound. -/
def hHas : Obj → String → Bool
  | [], _ => false
  | (k, _) :: t, q => if k = q then true else hHas t q

/-- Keys pairwise distinct, as they are in an actual JS object. -/
def keysNodup : Obj → Bool
  | [] => true
  | (k, _) :: t => !(hHas t k) && keysNodup t

theorem hGet_hSet_self : ∀ (o : Obj) (q v : String), hGet (hSet o q v) q = some v
  | [], q, v => by rw [hSet, hGet, if_pos rfl]
  | (k, w) :: t, q, v => by
    by_cases hk : k = q
    · rw [hSet, if_pos hk, hGet, if_pos rfl]
    · rw [hSet, if_neg hk, hGet, if_neg hk]
      exact hGet_hSet_self t q v

theorem hGet_hSet_other : ∀ (o : Obj) (q r v : String), r ≠ q →
    hGet (hSet o q v) r = hGet o r
  | [], q, r, v, h => by simp [hSet, hGet, Ne.symm h]
  | (k, w) :: t, q, r, v, h => by
    by_cases hk : k = q
    · subst hk
      rw [hSet, if_pos rfl, hGet, if_neg (Ne.symm h), hGet, if_neg (Ne.symm h)]
    · by_cases hr : k = r
      · rw [hSet, if_neg hk, hGet, if_pos hr, hGet, if_pos hr]
      · rw [hSet, if_neg hk, hGet, if_neg hr, hGet, if_neg hr]
        exact hGet_hSet_other t q r v h

theorem hGet_hDel_self : ∀ (o : Obj) (q : String), hGet (hDel o q) q = none
  | [], _ => rfl
  | (k, w) :: t, q => by
    by_cases hk : k = q
    · rw [hDel, if_pos hk]
      exact hGet_hDel_self t q
    · rw [hDel, if_neg hk, hGet, if_neg hk]
      exact hGet_hDel_self t q

theorem hGet_hDel_other : ∀ (o : Obj) (q r : String), r ≠ q →
    hGet (hDel o q) r = hGet o r
  | [], _, _, _ => rfl
  | (k, w) :: t, q, r, h => by
    by_cases hk : k = q
    · rw [hDel, if_pos hk, hGet, if_neg (fun hh : k = r => h ((Eq.symm hh).trans hk))]
      exact hGet_hDel_other t q r h
    · by_cases hr : k = r
      · rw [hDel, if_neg hk, hGet, if_pos hr, hGet, if_pos hr]
      · rw [hDel, if_neg hk, hGet, if_neg hr, hGet, if_neg hr]
        exact hGet_hDel_other t q r h

theorem hGet_of_hHas_false : ∀ (o : Obj) (q : String), hHas o q = false →
    hGet o q = none
  | [], _, _ => rfl
  | (k, w) :: t, q, h => by
    by_cases hk : k = q
    · rw [hHas, if_pos hk] at h
      exact Bool.noConfusion h
    · rw [hHas, if_neg hk] at h
      rw [hGet, if_neg hk]
      exact hGet_of_hHas_false t q h

/-- A key unbound in the list falls through a fold of JS assignments. -/
theorem overlay_get_none : ∀ (l acc : Obj) (q : String), hGet l q = none →
    hGet (l.foldl (fun a p => hSet a p.1 p.2) acc) q = hGet acc q
  | [], _, _, _ => rfl
  | (k, w) :: t, acc, q, h => by
    rw [hGet] at h
    by_cases hk : k = q
    · rw [if_pos hk] at h
      exact Option.noConfusion h
    · rw [if_neg hk] at h
      rw [List.foldl_cons, overlay_get_none t (hSet acc k w) q h]
      exact hGet_hSet_other acc k q w (fun hh => hk hh.symm)

/-- For a duplicate-free list of bindings, a fold of JS assignments binds
each of its keys to the listed value. -/
theorem overlay_get_some : ∀ (l acc : Obj) (q v : String), keysNodup l = true →
    hGet l q = some v →
    hGet (l.foldl (fun a p => hSet a p.1 p.2) acc) q = some v
  | [], _, _, _, _, h => Option.noConfusion h
  | (k, w) :: t, acc, q, v, hnd, h => by
    rw [keysNodup] at hnd
    simp only [Bool.and_eq_true, Bool.not_eq_true'] at hnd
    rw [hGet] at h
    by_cases hk : k = q
    · rw [if_pos hk] at h
      injection h with hv
      subst hk
      rw [List.foldl_cons,
        overlay_get_none t (hSet acc k w) k (hGet_of_hHas_false t k hnd.1),
        hGet_hSet_self acc k w, hv]
    · rw [if_neg hk] at h
      rw [List.foldl_cons]
      exact overlay_get_some t (hSet acc k w) q v hnd.2 h

/-- Reading a key through a filter that only inspects keys. -/
theorem hGet_keyFilter (f : String → Bool) : ∀ (l : Obj) (q : String),
    hGet (l.filter (fun p => f p.1)) q = if f q then hGet l q else none
  | [], q => by cases hf : f q <;> simp [hGet]
  | (k, w) :: t, q => by
    by_cases hk : k = q
    · subst hk
      cases hf : f k <;>
        simp [List.filter_cons, hf, hGet, hGet_keyFilter f t k]
    · cases hf : f k <;> cases hfq : f q <;>
        simp [List.filter_cons, hf, hfq, hGet, hk, hGet_keyFilter f t q]

theorem hHas_keyFilter_false (f : String → Bool) : ∀ (l : Obj) (q : String),
    hHas l q = false → hHas (l.filter (fun p => f p.1)) q = false
  | [], _, _ => rfl
  | (k, w) :: t, q, h => by
    by_cases hk : k = q
    · rw [hHas, if_pos hk] at h
      exact Bool.noConfusion h
    · rw [hHas, if_neg hk] at h
      cases hf : f k <;>
        simp [List.filter_cons, hf, hHas, hk, hHas_keyFilter_false f t q h]

theorem keysNodup_keyFilter (f : String → Bool) : ∀ (l : Obj),
    keysNodup l = true → keysNodup (l.filter (fun p => f p.1)) = true
  | [], _ => rfl
  | (k, w) :: t, h => by
    rw [keysNodup] at h
    simp only [Bool.and_eq_true, Bool.not_eq_true'] at h
    cases hf : f k <;>
      simp [List.filter_cons, hf, keysNodup, hHas_keyFilter_false f t k h.1,
        keysNodup_keyFilter f t h.2]

/-- A fold of conditional JS assignments equals the fold of plain
assignments over the filtered list. -/
theorem foldl_hSet_filter (c : String → Bool) : ∀ (l acc : Obj),
    l.foldl (fun a p => if c p.1 then a else hSet a p.1 p.2) acc
      = (l.filter (fun p => !(c p.1))).foldl (fun a p => hSet a p.1 p.2) acc
  | [], _ => rfl
  | (k, w) :: t, acc => by
    cases hc : c k <;>
      simp [List.foldl_cons, List.filter_cons, hc, foldl_hSet_filter c t]

def isAsciiAlpha (c : Char) : Bool :=
  let n := c.toNat
  (96 < n && n < 123) || (64 < n && n < 91)

def isAsciiDigit (c : Char) : Bool :=
  47 < c.toNat && c.toNat < 58

/-- JS toLowerCase / WHATWG byte-lowercasing, restricted to ASCII (header
names, schemes and hostnames are ASCII tokens). -/
def lowerChar (c : Char) : Char :=
  if 64 < c.toNat && c.toNat < 91 then Char.ofNat (c.toNat + 32) else c

def asciiLower (s : String) : String := String.mk (s.toList.map lowerChar)

def dropEnds (f : Char → Bool) (cs : List Char) : List Char :=
  ((cs.dropWhile f).reverse.dropWhile f).reverse

def isJsSpace (c : Char) : Bool :=
  c = ' ' || c = '\t' || c = '\n' || c = '\r' || c = '\x0b' || c = '\x0c'

/-- JS String.prototype.trim (ASCII whitespace). -/
def trimWs (s : String) : String := String.mk (dropEnds isJsSpace s.toList)

def splitCommaAux : List Char → List Char → List String
  | [], acc => [String.mk acc.reverse]
  | c :: t, acc =>
    if c = ',' then String.mk acc.reverse :: splitCommaAux t []
    else splitCommaAux t (c :: acc)

/-- JS String.prototype.split(',') on the ALLOWLIST value. -/
def splitOnComma (s : String) : List String := splitCommaAux s.toList []

/-- The hop-by-hop header names of api/proxy.js (the HOP_BY_HOP set). -/
def HOP_BY_HOP : List String :=
  ["connection", "keep-alive", "proxy-authenticate", "proxy-authorization",
   "te", "trailers", "transfer-encoding", "upgrade", "host"]

/-- The loop copying header entries whose lowercased name is not
hop-by-hop into a fresh object, as done both for the upstream request
headers and for the relayed response headers. -/
def copyNonHop (hs : Obj) : Obj :=
  hs.foldl
    (fun acc p => if HOP_BY_HOP.contains (asciiLower p.1) then acc else hSet acc p.1 p.2)
    []

theorem hGet_copyNonHop (hs : Obj) (q : String) (hnd : keysNodup hs = true) :
    hGet (copyNonHop hs) q =
      if HOP_BY_HOP.contains (asciiLower q) then none else hGet hs q := by
  rw [copyNonHop,
    foldl_hSet_filter (fun s => HOP_BY_HOP.contains (asciiLower s)) hs []]
  have hfil := hGet_keyFilter (fun s => !(HOP_BY_HOP.contains (asciiLower s))) hs q
  cases hq : HOP_BY_HOP.contains (asciiLower q)
  · rw [hq] at hfil
    simp only [Bool.not_false, if_pos] at hfil
    cases hgs : hGet hs q with
    | none =>
      rw [hgs] at hfil
      rw [overlay_get_none _ [] q hfil]
      simp [hGet]
    | some v =>
      rw [hgs] at hfil
      rw [overlay_get_some _ [] q v
        (keysNodup_keyFilter (fun s => !(HOP_BY_HOP.contains (asciiLower s))) hs hnd)
        hfil]
      simp [hgs]
  · rw [hq] at hfil
    simp only [Bool.not_true] at hfil
    rw [if_neg (by simp)] at hfil
    rw [overlay_get_none _ [] q hfil]
    simp [hGet]

/-- The fixed cross-origin header object returned by corsHeaders(origin). -/
def corsHeaders (origin : String) : Obj :=
  [("Access-Control-Allow-Origin", origin),
   ("Access-Control-Allow-Credentials", "false"),
   ("Access-Control-Allow-Methods", "GET,POST,PUT,PATCH,DELETE,OPTIONS"),
   ("Access-Control-Allow-Headers",
     "Content-Type, Authorization, X-Requested-With, X-CSRF-Token, Accept, Origin"),
   ("Access-Control-Max-Age", "86400")]

/-- Result of the WHATWG URL constructor, restricted to the two
properties the handler reads. -/
structure URLRec where
  protocol : String
  hostname : String
deriving DecidableEq


def isSchemeChar (c : Char) : Bool :=
  isAsciiAlpha c || isAsciiDigit c || c = '+' || c = '-' || c = '.'

/-- Split leading scheme characters from the rest. -/
def schemeSpan : List Char → List Char × List Char
  | [] => ([], [])
  | c :: t =>
    if isSchemeChar c then
      let r := schemeSpan t
      (c :: r.1, r.2)
    else ([], c :: t)

/-- Schemes whose URLs carry an authority (WHATWG special schemes,
minus file, which the handler never accepts anyway). -/
def specialSchemes : List String := ["http", "https", "ws", "wss", "ftp"]

def isAuthorityDelim (c : Char) : Bool :=
  c = '/' || c = '\\' || c = '?' || c = '#'

/-- Modelled from the spec: the WHATWG URL constructor provided by the
Node runtime (the handler calls new URL(u)), simplified to scheme and
hostname extraction. Parsing fails (the constructor throws) when there is
no scheme, or when a special-scheme URL has an empty or malformed
authority; non-special schemes parse as opaque URLs with empty hostname.
IPv6 host literals are not modelled. -/
def parseURL (input : String) : Option URLRec :=
  let cs := (dropEnds (fun c => c.toNat ≤ 0x20) input.toList).filter
    (fun c => !(c = '\t' || c = '\n' || c = '\r'))
  match cs with
  | [] => none
  | c0 :: _ =>
    if isAsciiAlpha c0 then
      let sp := schemeSpan cs
      match sp.2 with
      | ':' :: rest =>
        let scheme := asciiLower (String.mk sp.1)
        if specialSchemes.contains scheme then
          let afterSlashes := rest.dropWhile (fun c => c = '/' || c = '\\')
          let authority := afterSlashes.takeWhile (fun c => !(isAuthorityDelim c))
          let hostPort :=
            if authority.contains '@' then
              ((authority.reverse.takeWhile (fun c => c ≠ '@')).reverse)
            else authority
          if hostPort.contains '[' || hostPort.contains ']' then none
          else
            let host := hostPort.takeWhile (fun c => c ≠ ':')
            let port := (hostPort.dropWhile (fun c => c ≠ ':')).drop 1
            if host = [] then none
            else if !(port.all isAsciiDigit) then none
            else some { protocol := scheme ++ ":", hostname := asciiLower (String.mk host) }
        else
          some { protocol := scheme ++ ":", hostname := "" }
      | _ => none
    else none

/-- isHttpUrl of api/proxy.js: new URL(u) parses and the protocol is
http: or https:. -/
def isHttpUrl (u : String) : Bool :=
  match parseURL u with
  | some p => p.protocol = "http:" || p.protocol = "https:"
  | none => false

/-- new URL(u).hostname, as read by allowedByEnv (only reached after
isHttpUrl has succeeded). -/
def hostOf (u : String) : String :=
  match parseURL u with
  | some p => p.hostname
  | none => ""

/-- allowedByEnv of api/proxy.js. The ALLOWLIST environment variable is
passed in as an Option; a missing or empty value is falsy in JS and
disables the restriction. -/
def allowedByEnv (env : Option String) (u : String) : Bool :=
  match env with
  | none => true
  | some allow =>
    if allow = "" then true
    else
      ((splitOnComma allow).map (fun s => asciiLower (trimWs s))).contains
        (asciiLower (hostOf u))

/-- Modelled from the spec: Node Buffer base64 decoding is forgiving and
never throws. Characters outside the (standard or url-safe) base64
alphabet are skipped, a padding sign ends the input. -/
def b64Val (c : Char) : Option Nat :=
  let n := c.toNat
  if 64 < n && n < 91 then some (n - 65)
  else if 96 < n && n < 123 then some (n - 71)
  else if isAsciiDigit c then some (n + 4)
  else if c = '+' || c = '-' then some 62
  else if c = '/' || c = '_' then some 63
  else none

def b64Sextets : List Char → List Nat
  | [] => []
  | c :: t =>
    if c = '=' then []
    else
      match b64Val c with
      | some n => n :: b64Sextets t
      | none => b64Sextets t

def b64Bytes : List Nat → List Nat
  | a :: b :: c :: d :: t =>
    (a * 4 + b / 16) :: ((b % 16) * 16 + c / 4) :: ((c % 4) * 64 + d) :: b64Bytes t
  | [a, b] => [a * 4 + b / 16]
  | [a, b, c] => [a * 4 + b / 16, (b % 16) * 16 + c / 4]
  | _ => []

def replChar : Char := '�'

def isCont (b : Nat) : Bool := 0x80 ≤ b && b < 0xC0

/-- Modelled from the spec: lossy UTF-8 decoding as done by Buffer
toString('utf8') — malformed bytes become U+FFFD (the exact grouping of
consecutive malformed bytes into replacement characters is approximated).
Fuel-driven; one byte at least is consumed per step. -/
def utf8DecodeF : Nat → List Nat → List Char
  | 0, _ => []
  | _ + 1, [] => []
  | f + 1, b :: t =>
    if b < 0x80 then Char.ofNat b :: utf8DecodeF f t
    else if b < 0xC2 then replChar :: utf8DecodeF f t
    else if b < 0xE0 then
      match t with
      | b2 :: t2 =>
        if isCont b2 then
          Char.ofNat ((b - 0xC0) * 64 + (b2 - 0x80)) :: utf8DecodeF f t2
        else replChar :: utf8DecodeF f t
      | [] => [replChar]
    else if b < 0xF0 then
      match t with
      | b2 :: b3 :: t3 =>
        if isCont b2 && isCont b3
            && !(b = 0xE0 && b2 < 0xA0) && !(b = 0xED && 0xA0 ≤ b2) then
          Char.ofNat ((b - 0xE0) * 4096 + (b2 - 0x80) * 64 + (b3 - 0x80))
            :: utf8DecodeF f t3
        else replChar :: utf8DecodeF f t
      | _ => replChar :: utf8DecodeF f t
    else if b < 0xF5 then
      match t with
      | b2 :: b3 :: b4 :: t4 =>
        if isCont b2 && isCont b3 && isCont b4
            && !(b = 0xF0 && b2 < 0x90) && !(b = 0xF4 && 0x90 ≤ b2) then
          Char.ofNat
            ((b - 0xF0) * 262144 + (b2 - 0x80) * 4096 + (b3 - 0x80) * 64 + (b4 - 0x80))
            :: utf8DecodeF f t4
        else replChar :: utf8DecodeF f t
      | _ => replChar :: utf8DecodeF f t
    else replChar :: utf8DecodeF f t

def utf8Decode (bs : List Nat) : List Char := utf8DecodeF (bs.length + 1) bs

/-- Buffer.from(h64, 'base64').toString('utf8'). -/
def b64ToUtf8 (s : String) : String :=
  String.mk (utf8Decode (b64Bytes (b64Sextets s.toList)))

/-- JSON values as produced by JSON.parse (numbers keep their source
lexeme; object members are assembled with JS last-wins assignment). -/
inductive Json where
  | null
  | bool (b : Bool)
  | num (lexeme : String)
  | str (s : String)
  | arr (elems : List Json)
  | obj (members : List (String × Json))

/-- JS property read on a parsed JSON object. -/
def jGet : List (String × Json) → String → Option Json
  | [], _ => none
  | (k, v) :: t, q => if k = q then some v else jGet t q

/-- JS property write on a parsed JSON object. -/
def jSet : List (String × Json) → String → Json → List (String × Json)
  | [], q, v => [(q, v)]
  | (k, w) :: t, q, v => if k = q then (q, v) :: t else (k, w) :: jSet t q v

def jsWs (c : Char) : Bool := c = ' ' || c = '\t' || c = '\n' || c = '\r'

def skipWs (cs : List Char) : List Char := cs.dropWhile jsWs

def hexVal (c : Char) : Option Nat :=
  let n := c.toNat
  if isAsciiDigit c then some (n - 48)
  else if 96 < n && n < 103 then some (n - 87)
  else if 64 < n && n < 71 then some (n - 55)
  else none

/-- JSON string body scanning (after the opening quote): returns the
decoded characters and the input after the closing quote. Surrogate
escape pairs combine; lone surrogate escapes become U+FFFD (JS strings
can hold lone surrogates, which a Lean string cannot represent). -/
def pStrCharsF : Nat → List Char → Option (List Char × List Char)
  | 0, _ => none
  | _ + 1, [] => none
  | f + 1, c :: t =>
    if c = '"' then some ([], t)
    else if c = '\\' then
      match t with
      | [] => none
      | e :: t2 =>
        if e = '"' || e = '\\' || e = '/' then
          match pStrCharsF f t2 with
          | some r => some (e :: r.1, r.2)
          | none => none
        else if e = 'b' then
          match pStrCharsF f t2 with
          | some r => some ('\x08' :: r.1, r.2)
          | none => none
        else if e = 'f' then
          match pStrCharsF f t2 with
          | some r => some ('\x0C' :: r.1, r.2)
          | none => none
        else if e = 'n' then
          match pStrCharsF f t2 with
          | some r => some ('\n' :: r.1, r.2)
          | none => none
        else if e = 'r' then
          match pStrCharsF f t2 with
          | some r => some ('\r' :: r.1, r.2)
          | none => none
        else if e = 't' then
          match pStrCharsF f t2 with
          | some r => some ('\t' :: r.1, r.2)
          | none => none
        else if e = 'u' then
          match t2 with
          | h1 :: h2 :: h3 :: h4 :: t6 =>
            match hexVal h1, hexVal h2, hexVal h3, hexVal h4 with
            | some a, some b, some c2, some d =>
              let n := a * 4096 + b * 256 + c2 * 16 + d
              if 0xD800 ≤ n && n ≤ 0xDBFF then
                match t6 with
                | '\\' :: 'u' :: g1 :: g2 :: g3 :: g4 :: t12 =>
                  match hexVal g1, hexVal g2, hexVal g3, hexVal g4 with
                  | some e1, some e2, some e3, some e4 =>
                    let m := e1 * 4096 + e2 * 256 + e3 * 16 + e4
                    if 0xDC00 ≤ m && m ≤ 0xDFFF then
                      match pStrCharsF f t12 with
                      | some r =>
                        some (Char.ofNat (0x10000 + (n - 0xD800) * 1024 + (m - 0xDC00)) :: r.1, r.2)
                      | none => none
                    else
                      match pStrCharsF f t6 with
                      | some r => some (replChar :: r.1, r.2)
                      | none => none
                  | _, _, _, _ =>
                    match pStrCharsF f t6 with
                    | some r => some (replChar :: r.1, r.2)
                    | none => none
                | _ =>
                  match pStrCharsF f t6 with
                  | some r => some (replChar :: r.1, r.2)
                  | none => none
              else if 0xDC00 ≤ n && n ≤ 0xDFFF then
                match pStrCharsF f t6 with
                | some r => some (replChar :: r.1, r.2)
                | none => none
              else
                match pStrCharsF f t6 with
                | some r => some (Char.ofNat n :: r.1, r.2)
                | none => none
            | _, _, _, _ => none
          | _ => none
        else none
    else if c.toNat < 0x20 then none
    else
      match pStrCharsF f t with
      | some r => some (c :: r.1, r.2)
      | none => none

/-- JSON string body scanning entry point; one character at least is
consumed per fuel step. -/
def pStrChars (cs : List Char) : Option (List Char × List Char) :=
  pStrCharsF (cs.length + 1) cs

def pFrac (cs : List Char) : Option (List Char × List Char) :=
  match cs with
  | '.' :: t =>
    let ds := t.takeWhile isAsciiDigit
    if ds = [] then none else some ('.' :: ds, t.dropWhile isAsciiDigit)
  | _ => some ([], cs)

def pExp (cs : List Char) : Option (List Char × List Char) :=
  match cs with
  | c :: t =>
    if c = 'e' || c = 'E' then
      let sgnRest : List Char × List Char :=
        match t with
        | s :: t2 => if s = '+' || s = '-' then ([s], t2) else ([], t)
        | [] => ([], [])
      let ds := sgnRest.2.takeWhile isAsciiDigit
      if ds = [] then none
      else some (c :: (sgnRest.1 ++ ds), sgnRest.2.dropWhile isAsciiDigit)
    else some ([], cs)
  | [] => some ([], [])

/-- Scan a JSON number, keeping its source lexeme. -/
def pNum (cs : List Char) : Option (String × List Char) :=
  let sgnRest : List Char × List Char :=
    match cs with
    | '-' :: t => (['-'], t)
    | _ => ([], cs)
  match sgnRest.2 with
  | [] => none
  | c :: t =>
    if c = '0' then
      match pFrac t with
      | none => none
      | some (fr, r1) =>
        match pExp r1 with
        | none => none
        | some (ex, r2) => some (String.mk (sgnRest.1 ++ ['0'] ++ fr ++ ex), r2)
    else if isAsciiDigit c then
      let ds := t.takeWhile isAsciiDigit
      match pFrac (t.dropWhile isAsciiDigit) with
      | none => none
      | some (fr, r1) =>
        match pExp r1 with
        | none => none
        | some (ex, r2) =>
          some (String.mk (sgnRest.1 ++ (c :: ds) ++ fr ++ ex), r2)
    else none

/-- JS object assembly from parsed members: later duplicate keys win. -/
def jAssemble (ms : List (String × Json)) : List (String × Json) :=
  ms.foldl (fun acc p => jSet acc p.1 p.2) []

mutual

/-- Modelled from the spec: JSON.parse as called by decodeHeaderBase64.
Strict JSON grammar; a parse error is an exception in JS, here none.
Fuel-driven (two fuel units suffice per input character). -/
def pVal : Nat → List Char → Option (Json × List Char)
  | 0, _ => none
  | f + 1, cs =>
    match skipWs cs with
    | [] => none
    | 'n' :: 'u' :: 'l' :: 'l' :: t => some (Json.null, t)
    | 't' :: 'r' :: 'u' :: 'e' :: t => some (Json.bool true, t)
    | 'f' :: 'a' :: 'l' :: 's' :: 'e' :: t => some (Json.bool false, t)
    | '"' :: t =>
      match pStrChars t with
      | some r => some (Json.str (String.mk r.1), r.2)
      | none => none
    | '[' :: t =>
      match skipWs t with
      | ']' :: t2 => some (Json.arr [], t2)
      | t2 =>
        match pArrItems f t2 with
        | some r => some (Json.arr r.1, r.2)
        | none => none
    | '{' :: t =>
      match skipWs t with
      | '}' :: t2 => some (Json.obj [], t2)
      | t2 =>
        match pObjItems f t2 with
        | some r => some (Json.obj (jAssemble r.1), r.2)
        | none => none
    | c :: t =>
      if c = '-' || isAsciiDigit c then
        match pNum (c :: t) with
        | some r => some (Json.num r.1, r.2)
        | none => none
      else none

def pArrItems : Nat → List Char → Option (List Json × List Char)
  | 0, _ => none
  | f + 1, cs =>
    match pVal f cs with
    | none => none
    | some (v, rest) =>
      match skipWs rest with
      | ',' :: t =>
        match pArrItems f t with
        | some r => some (v :: r.1, r.2)
        | none => none
      | ']' :: t => some ([v], t)
      | _ => none

def pObjItems : Nat → List Char → Option (List (String × Json) × List Char)
  | 0, _ => none
  | f + 1, cs =>
    match skipWs cs with
    | '"' :: t =>
      match pStrChars t with
      | none => none
      | some (kcs, rest) =>
        match skipWs rest with
        | ':' :: t2 =>
          match pVal f t2 with
          | none => none
          | some (v, rest2) =>
            match skipWs rest2 with
            | ',' :: t3 =>
              match pObjItems f t3 with
              | some r => some ((String.mk kcs, v) :: r.1, r.2)
              | none => none
            | '}' :: t3 => some ([(String.mk kcs, v)], t3)
            | _ => none
        | _ => none
    | _ => none

end

/-- JSON.parse: a complete value followed only by whitespace. -/
def jsonParse (s : String) : Option Json :=
  match pVal (2 * s.toList.length + 2) s.toList with
  | some (j, rest) => if skipWs rest = [] then some j else none
  | none => none

mutual

/-- JS string conversion of a JSON value, as applied to header values
when the fetch call serializes them. -/
def jsToString : Json → String
  | Json.null => "null"
  | Json.bool b => cond b "true" "false"
  | Json.num lx => lx
  | Json.str s => s
  | Json.arr xs => jsArrString xs
  | Json.obj _ => "[object Object]"

/-- Array.prototype.toString: elements joined with commas, null elements
becoming empty strings. -/
def jsArrString : List Json → String
  | [] => ""
  | [Json.null] => ""
  | [v] => jsToString v
  | Json.null :: t => "," ++ jsArrString t
  | v :: t => jsToString v ++ "," ++ jsArrString t

end

/-- typeof x === 'object' and truthy: JSON objects and arrays. -/
def isObjLike : Json → Bool
  | Json.obj _ => true
  | Json.arr _ => true
  | _ => false

/-- Object.entries on the decoded value, with values converted to
strings as the fetch serialization does. -/
def jsEntries : Json → Obj
  | Json.obj ms => ms.map (fun p => (p.1, jsToString p.2))
  | Json.arr xs => xs.enum.map (fun p => (toString p.1, jsToString p.2))
  | _ => []

/-- decodeHeaderBase64 of api/proxy.js: forgiving base64 decoding, then
JSON.parse inside try/catch, and the result is returned only when it is
a non-null object (JS arrays included); anything else yields null. -/
def decodeHeaderBase64 (h64 : String) : Option Json :=
  match jsonParse (b64ToUtf8 h64) with
  | some j => if isObjLike j then some j else none
  | none => none

/-- The default user agent injected by the handler. -/
def defaultUA : String := "Mozilla/5.0 (CORS-Proxy on Vercel)"

/-- An inbound request as the Vercel Node runtime hands it to the
handler: req.method, req.query.url, req.query.h64, req.headers (an
object whose keys the Node HTTP parser has lowercased), and the request
body stream (a byte sequence; the handler forwards the stream object
itself, never inspecting it). -/
structure Request where
  method : String
  queryUrl : Option String
  queryH64 : Option String
  headers : Obj
  body : List Nat

/-- A fetch Response as far as the handler reads it: status, headers (as
iterated by Headers.forEach) and the body stream, which is null for
body-less responses. -/
structure Upstream where
  status : Nat
  headers : Obj
  body : Option (List Nat)

/-- The init object passed to fetch: method, headers, body. -/
structure FetchInit where
  method : String
  headers : Obj
  body : Option (List Nat)

/-- What the handler writes back: a status code, a header object and a
body, which is empty (res.end()), a JSON document (res.end of a
JSON.stringify result) or a piped upstream stream. -/
inductive ResBody where
  | empty
  | jsonBody (j : Json)
  | stream (bytes : List Nat)

structure Response where
  status : Nat
  headers : Obj
  body : ResBody

/-- req.headers.origin || '*' (JS: an absent or empty header is falsy). -/
def originOf (hs : Obj) : String :=
  match hGet hs "origin" with
  | some v => if v = "" then "*" else v
  | none => "*"

/-- An error response: writeHead(code, Content-Type + corsHeaders) and a
JSON.stringify({error: msg}) body. -/
def errResponse (code : Nat) (msg : String) (origin : String) : Response :=
  { status := code,
    headers := ("Content-Type", "application/json") :: corsHeaders origin,
    body := ResBody.jsonBody (Json.obj [("error", Json.str msg)]) }

/-- The extra header object: h64 ? decodeHeaderBase64(h64) : null, with
Object.entries taken at overlay time. An empty h64 is falsy in JS. -/
def extraOf (qh64 : Option String) : Option Obj :=
  match qh64 with
  | some h64 =>
    if h64 = "" then none
    else
      match decodeHeaderBase64 h64 with
      | some j => some (jsEntries j)
      | none => none
  | none => none

/-- The upstreamHeaders object before the extra-header overlay: copy
non-hop-by-hop inbound entries, force a user-agent (JS || also replaces
an empty one), delete the exact key origin. -/
def preExtraHeaders (reqHeaders : Obj) : Obj :=
  let u0 := copyNonHop reqHeaders
  let ua :=
    match hGet u0 "user-agent" with
    | some v => if v = "" then defaultUA else v
    | none => defaultUA
  hDel (hSet u0 "user-agent" ua) "origin"

/-- The upstreamHeaders object of the handler: the above, then the extra
header entries overlaid with plain JS assignments. -/
def buildUpstreamHeaders (reqHeaders : Obj) (extra : Option Obj) : Obj :=
  match extra with
  | some ex => ex.foldl (fun a p => hSet a p.1 p.2) (preExtraHeaders reqHeaders)
  | none => preExtraHeaders reqHeaders

/-- The default Access-Control-Expose-Headers value. -/
def exposeDefault : String := "Content-Type, Content-Length, ETag"

/-- The relayed response headers: copy non-hop-by-hop upstream entries,
assign the five cross-origin values read from corsHeaders(origin) under
their mixed-case names, then ensure Access-Control-Expose-Headers via
JS || (which only sees an exact-key, non-empty existing value). -/
def relayHeaders (upHeaders : Obj) (origin : String) : Obj :=
  let h0 := copyNonHop upHeaders
  let c := corsHeaders origin
  let h1 := hSet h0 "Access-Control-Allow-Origin"
    ((hGet c "Access-Control-Allow-Origin").getD "")
  let h2 := hSet h1 "Access-Control-Allow-Credentials"
    ((hGet c "Access-Control-Allow-Credentials").getD "")
  let h3 := hSet h2 "Access-Control-Allow-Methods"
    ((hGet c "Access-Control-Allow-Methods").getD "")
  let h4 := hSet h3 "Access-Control-Allow-Headers"
    ((hGet c "Access-Control-Allow-Headers").getD "")
  let h5 := hSet h4 "Access-Control-Max-Age"
    ((hGet c "Access-Control-Max-Age").getD "")
  let eh :=
    match hGet h5 "Access-Control-Expose-Headers" with
    | some v => if v = "" then exposeDefault else v
    | none => exposeDefault
  hSet h5 "Access-Control-Expose-Headers" eh

/-- The handler of api/proxy.js. The single fetch call is represented by
its outcome, passed in as fetchResult (ok: the resolved Response; error:
the message of the thrown error). The function returns the response
written to the caller together with the fetch call that was issued, if
any — none means the upstream was never contacted. -/
def handler (env : Option String) (req : Request)
    (fetchResult : Except String Upstream) :
    Response × Option (String × FetchInit) :=
  let origin := originOf req.headers
  if req.method = "OPTIONS" then
    ({ status := 204, headers := corsHeaders origin, body := ResBody.empty }, none)
  else
    match req.queryUrl with
    | none => (errResponse 400 "Falta el parámetro ?url=" origin, none)
    | some url =>
      if url = "" then (errResponse 400 "Falta el parámetro ?url=" origin, none)
      else if isHttpUrl url = false then
        (errResponse 400 "URL inválida o protocolo no permitido" origin, none)
      else if allowedByEnv env url = false then
        (errResponse 403 "Host no permitido por ALLOWLIST" origin, none)
      else
        let extra := extraOf req.queryH64
        let uh := buildUpstreamHeaders req.headers extra
        let init : FetchInit :=
          { method := req.method, headers := uh,
            body :=
              if req.method = "GET" ∨ req.method = "HEAD" then none
              else some req.body }
        match fetchResult with
        | Except.ok up =>
          ({ status := up.status,
             headers := relayHeaders up.headers origin,
             body :=
               match up.body with
               | some b => ResBody.stream b
               | none => ResBody.empty },
           some (url, init))
        | Except.error msg =>
          ({ status := 502,
             headers := ("Content-Type", "application/json") :: corsHeaders origin,
             body := ResBody.jsonBody (Json.obj
               [("error", Json.str "Upstream error"), ("detail", Json.str msg)]) },
           some (url, init))

/-- A JSON response body carrying a string error field. -/
def isErrorJson : ResBody → Bool
  | ResBody.jsonBody (Json.obj ms) =>
    match jGet ms "error" with
    | some (Json.str _) => true
    | _ => false
  | _ => false

theorem hGet_preExtraHeaders (hs : Obj) (q : String) (hnd : keysNodup hs = true) :
    hGet (preExtraHeaders hs) q =
      if q = "user-agent" then
        some (match hGet hs "user-agent" with
              | some v => if v = "" then defaultUA else v
              | none => defaultUA)
      else if q = "origin" then none
      else if HOP_BY_HOP.contains (asciiLower q) then none
      else hGet hs q := by
  simp only [preExtraHeaders]
  by_cases hqa : q = "user-agent"
  · subst hqa
    rw [hGet_hDel_other _ "origin" "user-agent" (by decide),
      hGet_hSet_self, if_pos rfl, hGet_copyNonHop hs "user-agent" hnd,
      if_neg (by decide)]
  · rw [if_neg hqa]
    by_cases hqo : q = "origin"
    · subst hqo
      rw [hGet_hDel_self, if_pos rfl]
    · rw [if_neg hqo, hGet_hDel_other _ "origin" q hqo,
        hGet_hSet_other _ "user-agent" q _ hqa, hGet_copyNonHop hs q hnd]

theorem hGet_buildUpstreamHeaders (hs : Obj) (ex : Obj) (q : String)
    (hndx : keysNodup ex = true) :
    hGet (buildUpstreamHeaders hs (some ex)) q =
      match hGet ex q with
      | some v => some v
      | none => hGet (preExtraHeaders hs) q := by
  rw [buildUpstreamHeaders]
  cases hge : hGet ex q with
  | some v => exact overlay_get_some ex (preExtraHeaders hs) q v hndx hge
  | none => exact overlay_get_none ex (preExtraHeaders hs) q hge

/-- The five fixed cross-origin response headers hold on the relayed
header object for every upstream header object. -/
theorem relay_cors_fields (up : Obj) (origin : String) :
    hGet (relayHeaders up origin) "Access-Control-Allow-Origin" = some origin
    ∧ hGet (relayHeaders up origin) "Access-Control-Allow-Credentials" = some "false"
    ∧ hGet (relayHeaders up origin) "Access-Control-Allow-Methods"
        = some "GET,POST,PUT,PATCH,DELETE,OPTIONS"
    ∧ hGet (relayHeaders up origin) "Access-Control-Allow-Headers"
        = some "Content-Type, Authorization, X-Requested-With, X-CSRF-Token, Accept, Origin"
    ∧ hGet (relayHeaders up origin) "Access-Control-Max-Age" = some "86400" := by
  simp only [relayHeaders]
  refine ⟨?_, ?_, ?_, ?_, ?_⟩
  · rw [hGet_hSet_other _ _ _ _ (by decide), hGet_hSet_other _ _ _ _ (by decide),
      hGet_hSet_other _ _ _ _ (by decide), hGet_hSet_other _ _ _ _ (by decide),
      hGet_hSet_other _ _ _ _ (by decide), hGet_hSet_self]
    rfl
  · rw [hGet_hSet_other _ _ _ _ (by decide), hGet_hSet_other _ _ _ _ (by decide),
      hGet_hSet_other _ _ _ _ (by decide), hGet_hSet_other _ _ _ _ (by decide),
      hGet_hSet_self]
    rfl
  · rw [hGet_hSet_other _ _ _ _ (by decide), hGet_hSet_other _ _ _ _ (by decide),
      hGet_hSet_other _ _ _ _ (by decide), hGet_hSet_self]
    rfl
  · rw [hGet_hSet_other _ _ _ _ (by decide), hGet_hSet_other _ _ _ _ (by decide),
      hGet_hSet_self]
    rfl
  · rw [hGet_hSet_other _ _ _ _ (by decide), hGet_hSet_self]
    rfl

/-- Full characterization of the relayed response header object. -/
theorem hGet_relayHeaders (up : Obj) (origin q : String)
    (hnd : keysNodup up = true) :
    hGet (relayHeaders up origin) q =
      if q = "Access-Control-Expose-Headers" then
        some (match hGet up "Access-Control-Expose-Headers" with
              | some v => if v = "" then exposeDefault else v
              | none => exposeDefault)
      else if q = "Access-Control-Allow-Origin" then some origin
      else if q = "Access-Control-Allow-Credentials" then some "false"
      else if q = "Access-Control-Allow-Methods" then
        some "GET,POST,PUT,PATCH,DELETE,OPTIONS"
      else if q = "Access-Control-Allow-Headers" then
        some "Content-Type, Authorization, X-Requested-With, X-CSRF-Token, Accept, Origin"
      else if q = "Access-Control-Max-Age" then some "86400"
      else if HOP_BY_HOP.contains (asciiLower q) then none
      else hGet up q := by
  have hexp : hGet (copyNonHop up) "Access-Control-Expose-Headers"
      = hGet up "Access-Control-Expose-Headers" := by
    rw [hGet_copyNonHop up _ hnd, if_neg (by decide)]
  simp only [relayHeaders]
  by_cases h1 : q = "Access-Control-Expose-Headers"
  · subst h1
    rw [if_pos rfl, hGet_hSet_self,
      hGet_hSet_other _ _ _ _ (by decide), hGet_hSet_other _ _ _ _ (by decide),
      hGet_hSet_other _ _ _ _ (by decide), hGet_hSet_other _ _ _ _ (by decide),
      hGet_hSet_other _ _ _ _ (by decide), hexp]
  · rw [if_neg h1, hGet_hSet_other _ _ _ _ h1]
    by_cases h2 : q = "Access-Control-Allow-Origin"
    · subst h2
      rw [if_pos rfl, hGet_hSet_other _ _ _ _ (by decide),
        hGet_hSet_other _ _ _ _ (by decide), hGet_hSet_other _ _ _ _ (by decide),
        hGet_hSet_other _ _ _ _ (by decide), hGet_hSet_self]
      rfl
    · rw [if_neg h2]
      by_cases h3 : q = "Access-Control-Allow-Credentials"
      · subst h3
        rw [if_pos rfl, hGet_hSet_other _ _ _ _ (by decide),
          hGet_hSet_other _ _ _ _ (by decide), hGet_hSet_other _ _ _ _ (by decide),
          hGet_hSet_self]
        rfl
      · rw [if_neg h3]
        by_cases h4 : q = "Access-Control-Allow-Methods"
        · subst h4
          rw [if_pos rfl, hGet_hSet_other _ _ _ _ (by decide),
            hGet_hSet_other _ _ _ _ (by decide), hGet_hSet_self]
          rfl
        · rw [if_neg h4]
          by_cases h5 : q = "Access-Control-Allow-Headers"
          · subst h5
            rw [if_pos rfl, hGet_hSet_other _ _ _ _ (by decide), hGet_hSet_self]
            rfl
          · rw [if_neg h5]
            by_cases h6 : q = "Access-Control-Max-Age"
            · subst h6
              rw [if_pos rfl, hGet_hSet_self]
              rfl
            · rw [if_neg h6, hGet_hSet_other _ _ _ _ h6,
                hGet_hSet_other _ _ _ _ h5, hGet_hSet_other _ _ _ _ h4,
                hGet_hSet_other _ _ _ _ h3, hGet_hSet_other _ _ _ _ h2,
                hGet_copyNonHop up q hnd]

theorem originOf_present (hs : Obj) (v : String)
    (h : hGet hs "origin" = some v) (hne : v ≠ "") : originOf hs = v := by
  rw [originOf, h]
  exact if_neg hne

theorem originOf_absent (hs : Obj)
    (h : hGet hs "origin" = none ∨ hGet hs "origin" = some "") :
    originOf hs = "*" := by
  cases h with
  | inl h => rw [originOf, h]
  | inr h =>
    rw [originOf, h]
    exact if_pos rfl

/-- On every handler path the response headers carry the five fixed
cross-origin entries, with Access-Control-Allow-Origin bound to
originOf req.headers. -/
theorem handler_cors_fields (env : Option String) (req : Request)
    (fr : Except String Upstream) :
    hGet (handler env req fr).1.headers "Access-Control-Allow-Origin"
      = some (originOf req.headers)
    ∧ hGet (handler env req fr).1.headers "Access-Control-Allow-Credentials"
      = some "false"
    ∧ hGet (handler env req fr).1.headers "Access-Control-Allow-Methods"
      = some "GET,POST,PUT,PATCH,DELETE,OPTIONS"
    ∧ hGet (handler env req fr).1.headers "Access-Control-Allow-Headers"
      = some "Content-Type, Authorization, X-Requested-With, X-CSRF-Token, Accept, Origin"
    ∧ hGet (handler env req fr).1.headers "Access-Control-Max-Age"
      = some "86400" := by
  obtain ⟨m, qu, qh, hs, bd⟩ := req
  by_cases hm : m = "OPTIONS"
  · subst hm
    exact ⟨rfl, rfl, rfl, rfl, rfl⟩
  · cases qu with
    | none =>
      simp only [handler, if_neg hm]
      exact ⟨rfl, rfl, rfl, rfl, rfl⟩
    | some u =>
      simp only [handler, if_neg hm]
      by_cases hu : u = ""
      · subst hu
        exact ⟨rfl, rfl, rfl, rfl, rfl⟩
      · rw [if_neg hu]
        cases hv : isHttpUrl u
        · exact ⟨rfl, rfl, rfl, rfl, rfl⟩
        · cases ha : allowedByEnv env u
          · exact ⟨rfl, rfl, rfl, rfl, rfl⟩
          · cases fr with
            | error msg => exact ⟨rfl, rfl, rfl, rfl, rfl⟩
            | ok up =>
              exact relay_cors_fields up.headers (originOf hs)

/-- C1 (amended): on every outcome path (OPTIONS preflight, missing-url
400, invalid-url 400, host-not-allowed 403, upstream-failure 502 and
successful relay) the response header object carries the fixed
cross-origin header set, with Access-Control-Allow-Origin equal to the
inbound origin header value when that header is present with a
non-empty value and "*" when it is absent or empty, and
Access-Control-Allow-Credentials equal to "false". -/
theorem c1_cors_always_present (env : Option String) (req : Request)
    (fr : Except String Upstream) :
    (∀ v, hGet req.headers "origin" = some v → v ≠ "" →
      hGet (handler env req fr).1.headers "Access-Control-Allow-Origin" = some v)
    ∧ ((hGet req.headers "origin" = none ∨ hGet req.headers "origin" = some "") →
      hGet (handler env req fr).1.headers "Access-Control-Allow-Origin" = some "*")
    ∧ hGet (handler env req fr).1.headers "Access-Control-Allow-Credentials"
      = some "false"
    ∧ hGet (handler env req fr).1.headers "Access-Control-Allow-Methods"
      = some "GET,POST,PUT,PATCH,DELETE,OPTIONS"
    ∧ hGet (handler env req fr).1.headers "Access-Control-Allow-Headers"
      = some "Content-Type, Authorization, X-Requested-With, X-CSRF-Token, Accept, Origin"
    ∧ hGet (handler env req fr).1.headers "Access-Control-Max-Age"
      = some "86400" := by
  obtain ⟨hacao, hrest⟩ := handler_cors_fields env req fr
  refine ⟨?_, ?_, hrest.1, hrest.2.1, hrest.2.2.1, hrest.2.2.2⟩
  · intro v h hne
    rw [hacao, originOf_present req.headers v h hne]
  · intro h
    rw [hacao, originOf_absent req.headers h]

/-- C1 counterexample: a request whose Origin header is present but
empty ("Origin:" with an empty value, which the Node runtime delivers
as the empty string) is answered with Access-Control-Allow-Origin "*",
not with the echoed (empty) inbound value, because the handler computes
req.headers.origin || '*'. -/
theorem c1_counterexample :
    hGet ({ method := "GET", queryUrl := none, queryH64 := none,
            headers := [("origin", "")], body := [] } : Request).headers "origin"
      = some ""
    ∧ hGet ((handler none
        { method := "GET", queryUrl := none, queryH64 := none,
          headers := [("origin", "")], body := [] }
        (Except.error "e")).1).headers "Access-Control-Allow-Origin" = some "*"
    ∧ ("*" : String) ≠ "" := ⟨rfl, rfl, by decide⟩

/-- C1 witness: a concrete GET request with a non-empty Origin header on
the missing-url error path gets that origin echoed and credentials
"false". -/
theorem c1_witness :
    hGet ((handler none
        { method := "GET", queryUrl := none, queryH64 := none,
          headers := [("origin", "http://client.example")], body := [] }
        (Except.error "e")).1).headers "Access-Control-Allow-Origin"
      = some "http://client.example"
    ∧ hGet ((handler none
        { method := "GET", queryUrl := none, queryH64 := none,
          headers := [("origin", "http://client.example")], body := [] }
        (Except.error "e")).1).headers "Access-Control-Allow-Credentials"
      = some "false" := by
  have h := c1_cors_always_present none
    { method := "GET", queryUrl := none, queryH64 := none,
      headers := [("origin", "http://client.example")], body := [] }
    (Except.error "e")
  exact ⟨h.1 "http://client.example" rfl (by decide), h.2.2.1⟩

/-- C9 (amended): for every request with method OPTIONS the handler
responds immediately with status 204, an empty body and exactly the
cross-origin header set, echoing the inbound origin header when it is
present with a non-empty value and "*" otherwise; no upstream call is
issued. -/
theorem c9_options_preflight (env : Option String) (req : Request)
    (fr : Except String Upstream) (hm : req.method = "OPTIONS") :
    (handler env req fr).1.status = 204
    ∧ (handler env req fr).1.body = ResBody.empty
    ∧ (handler env req fr).1.headers = corsHeaders (originOf req.headers)
    ∧ (handler env req fr).2 = none
    ∧ (∀ v, hGet req.headers "origin" = some v → v ≠ "" →
        hGet (handler env req fr).1.headers "Access-Control-Allow-Origin" = some v)
    ∧ ((hGet req.headers "origin" = none ∨ hGet req.headers "origin" = some "") →
        hGet (handler env req fr).1.headers "Access-Control-Allow-Origin" = some "*") := by
  obtain ⟨m, qu, qh, hs, bd⟩ := req
  simp only at hm
  subst hm
  refine ⟨rfl, rfl, rfl, rfl, ?_, ?_⟩
  · intro v h hne
    have hacao : hGet ((handler env
        { method := "OPTIONS", queryUrl := qu, queryH64 := qh,
          headers := hs, body := bd } fr).1).headers "Access-Control-Allow-Origin"
        = some (originOf hs) := rfl
    rw [hacao, originOf_present hs v h hne]
  · intro h
    have hacao : hGet ((handler env
        { method := "OPTIONS", queryUrl := qu, queryH64 := qh,
          headers := hs, body := bd } fr).1).headers "Access-Control-Allow-Origin"
        = some (originOf hs) := rfl
    rw [hacao, originOf_absent hs h]

/-- C9 counterexample: an OPTIONS request whose Origin header is present
but empty is answered with Access-Control-Allow-Origin "*", not the
echoed inbound value, because of the || '*' fallback. -/
theorem c9_counterexample :
    hGet ({ method := "OPTIONS", queryUrl := none, queryH64 := none,
            headers := [("origin", "")], body := [] } : Request).headers "origin"
      = some ""
    ∧ hGet ((handler none
        { method := "OPTIONS", queryUrl := none, queryH64 := none,
          headers := [("origin", "")], body := [] }
        (Except.error "e")).1).headers "Access-Control-Allow-Origin" = some "*"
    ∧ ("*" : String) ≠ "" := ⟨rfl, rfl, by decide⟩

/-- C9 witness: a concrete OPTIONS preflight with a non-empty origin is
answered 204, empty body, no upstream call, origin echoed. -/
theorem c9_witness :
    (handler none
      { method := "OPTIONS", queryUrl := some "https://api.example.com/x",
        queryH64 := none, headers := [("origin", "http://client.example")],
        body := [] } (Except.error "e")).1.status = 204
    ∧ (handler none
      { method := "OPTIONS", queryUrl := some "https://api.example.com/x",
        queryH64 := none, headers := [("origin", "http://client.example")],
        body := [] } (Except.error "e")).1.body = ResBody.empty
    ∧ (handler none
      { method := "OPTIONS", queryUrl := some "https://api.example.com/x",
        queryH64 := none, headers := [("origin", "http://client.example")],
        body := [] } (Except.error "e")).2 = none
    ∧ hGet ((handler none
      { method := "OPTIONS", queryUrl := some "https://api.example.com/x",
        queryH64 := none, headers := [("origin", "http://client.example")],
        body := [] } (Except.error "e")).1).headers "Access-Control-Allow-Origin"
      = some "http://client.example" := by
  have h := c9_options_preflight none
    { method := "OPTIONS", queryUrl := some "https://api.example.com/x",
      queryH64 := none, headers := [("origin", "http://client.example")],
      body := [] } (Except.error "e") rfl
  exact ⟨h.1, h.2.1, h.2.2.2.1, h.2.2.2.2.1 "http://client.example" rfl (by decide)⟩

/-- Handler evaluation: missing url parameter. -/
theorem handler_missing (env : Option String) (m : String) (qh : Option String)
    (hs : Obj) (bd : List Nat) (fr : Except String Upstream)
    (hm : m ≠ "OPTIONS") :
    handler env ⟨m, none, qh, hs, bd⟩ fr
      = (errResponse 400 "Falta el parámetro ?url=" (originOf hs), none) := by
  simp only [handler, if_neg hm]

/-- Handler evaluation: empty url parameter (falsy in JS, same branch as
a missing one). -/
theorem handler_empty_url (env : Option String) (m : String) (qh : Option String)
    (hs : Obj) (bd : List Nat) (fr : Except String Upstream)
    (hm : m ≠ "OPTIONS") :
    handler env ⟨m, some "", qh, hs, bd⟩ fr
      = (errResponse 400 "Falta el parámetro ?url=" (originOf hs), none) := by
  simp only [handler, if_neg hm]
  rfl

/-- Handler evaluation: present but invalid url. -/
theorem handler_invalid_url (env : Option String) (m : String) (u : String)
    (qh : Option String) (hs : Obj) (bd : List Nat) (fr : Except String Upstream)
    (hm : m ≠ "OPTIONS") (hu : u ≠ "") (hv : isHttpUrl u = false) :
    handler env ⟨m, some u, qh, hs, bd⟩ fr
      = (errResponse 400 "URL inválida o protocolo no permitido" (originOf hs), none) := by
  simp only [handler, if_neg hm]
  rw [if_neg hu, hv]
  rfl

/-- Handler evaluation: valid url, host rejected by the allow-list. -/
theorem handler_forbidden (env : Option String) (m : String) (u : String)
    (qh : Option String) (hs : Obj) (bd : List Nat) (fr : Except String Upstream)
    (hm : m ≠ "OPTIONS") (hu : u ≠ "") (hv : isHttpUrl u = true)
    (ha : allowedByEnv env u = false) :
    handler env ⟨m, some u, qh, hs, bd⟩ fr
      = (errResponse 403 "Host no permitido por ALLOWLIST" (originOf hs), none) := by
  simp only [handler, if_neg hm]
  rw [if_neg hu, hv, ha]
  rfl

/-- Handler evaluation: validation passed, upstream fetch resolved. -/
theorem handler_fetch_ok (env : Option String) (m : String) (u : String)
    (qh : Option String) (hs : Obj) (bd : List Nat) (up : Upstream)
    (hm : m ≠ "OPTIONS") (hu : u ≠ "") (hv : isHttpUrl u = true)
    (ha : allowedByEnv env u = true) :
    handler env ⟨m, some u, qh, hs, bd⟩ (Except.ok up)
      = ({ status := up.status,
           headers := relayHeaders up.headers (originOf hs),
           body := match up.body with
                   | some b => ResBody.stream b
                   | none => ResBody.empty },
         some (u, { method := m, headers := buildUpstreamHeaders hs (extraOf qh),
                    body := if m = "GET" ∨ m = "HEAD" then none
                            else some bd })) := by
  simp only [handler, if_neg hm]
  rw [if_neg hu, hv, ha]
  rfl

/-- Handler evaluation: validation passed, upstream fetch threw. -/
theorem handler_fetch_err (env : Option String) (m : String) (u : String)
    (qh : Option String) (hs : Obj) (bd : List Nat) (msg : String)
    (hm : m ≠ "OPTIONS") (hu : u ≠ "") (hv : isHttpUrl u = true)
    (ha : allowedByEnv env u = true) :
    handler env ⟨m, some u, qh, hs, bd⟩ (Except.error msg)
      = ({ status := 502,
           headers := ("Content-Type", "application/json") :: corsHeaders (originOf hs),
           body := ResBody.jsonBody (Json.obj
             [("error", Json.str "Upstream error"), ("detail", Json.str msg)]) },
         some (u, { method := m, headers := buildUpstreamHeaders hs (extraOf qh),
                    body := if m = "GET" ∨ m = "HEAD" then none
                            else some bd })) := by
  simp only [handler, if_neg hm]
  rw [if_neg hu, hv, ha]
  rfl

/-- C4: for every non-OPTIONS request, a missing url query parameter is
answered with status 400 and a JSON body carrying an error field, and a
present url that is not a syntactically valid absolute http/https URL is
likewise answered 400 with a JSON error body; neither path issues an
upstream call. -/
theorem c4_url_validation (env : Option String) (req : Request)
    (fr : Except String Upstream) (hm : req.method ≠ "OPTIONS") :
    (req.queryUrl = none →
      (handler env req fr).1.status = 400
      ∧ isErrorJson (handler env req fr).1.body = true
      ∧ (handler env req fr).2 = none)
    ∧ (∀ u, req.queryUrl = some u → isHttpUrl u = false →
      (handler env req fr).1.status = 400
      ∧ isErrorJson (handler env req fr).1.body = true
      ∧ (handler env req fr).2 = none) := by
  obtain ⟨m, qu, qh, hs, bd⟩ := req
  simp only at hm
  refine ⟨?_, ?_⟩
  · intro hq
    simp only at hq
    subst hq
    rw [handler_missing env m qh hs bd fr hm]
    exact ⟨rfl, rfl, rfl⟩
  · intro u hq hv
    simp only at hq
    subst hq
    by_cases hu : u = ""
    · subst hu
      rw [handler_empty_url env m qh hs bd fr hm]
      exact ⟨rfl, rfl, rfl⟩
    · rw [handler_invalid_url env m u qh hs bd fr hm hu hv]
      exact ⟨rfl, rfl, rfl⟩

/-- C4 witness: a request without url, one with the unparseable url
"not-a-url", and one with the wrong-scheme url "ftp://example.com" are
each answered 400 with a JSON error body and no upstream call. -/
theorem c4_witness :
    (handler none
      { method := "GET", queryUrl := none, queryH64 := none,
        headers := [], body := [] } (Except.error "e")).1.status = 400
    ∧ (handler none
      { method := "GET", queryUrl := some "not-a-url", queryH64 := none,
        headers := [], body := [] } (Except.error "e")).1.status = 400
    ∧ isErrorJson (handler none
      { method := "GET", queryUrl := some "not-a-url", queryH64 := none,
        headers := [], body := [] } (Except.error "e")).1.body = true
    ∧ (handler none
      { method := "GET", queryUrl := some "ftp://example.com", queryH64 := none,
        headers := [], body := [] } (Except.error "e")).2 = none := by
  have h1 := c4_url_validation none
    { method := "GET", queryUrl := none, queryH64 := none,
      headers := [], body := [] } (Except.error "e") (by decide)
  have h2 := c4_url_validation none
    { method := "GET", queryUrl := some "not-a-url", queryH64 := none,
      headers := [], body := [] } (Except.error "e") (by decide)
  have h3 := c4_url_validation none
    { method := "GET", queryUrl := some "ftp://example.com", queryH64 := none,
      headers := [], body := [] } (Except.error "e") (by decide)
  exact ⟨(h1.1 rfl).1, (h2.2 "not-a-url" rfl rfl).1,
    (h2.2 "not-a-url" rfl rfl).2.1, (h3.2 "ftp://example.com" rfl rfl).2.2⟩

theorem allowedByEnv_some_iff (a u : String) (hne : a ≠ "") :
    allowedByEnv (some a) u = true ↔
      ∃ e ∈ splitOnComma a, asciiLower (trimWs e) = asciiLower (hostOf u) := by
  rw [allowedByEnv, if_neg hne]
  rw [show (((splitOnComma a).map (fun s => asciiLower (trimWs s))).contains
      (asciiLower (hostOf u)) = true)
    ↔ asciiLower (hostOf u) ∈ (splitOnComma a).map (fun s => asciiLower (trimWs s))
    from List.elem_iff]
  exact List.mem_map

/-- C5: for a valid non-OPTIONS http/https request, a missing (or empty,
hence falsy) ALLOWLIST permits every hostname; a non-empty ALLOWLIST
permits the request exactly when the target hostname matches one of the
comma-separated entries case-insensitively (after trimming, exact match,
no wildcards), and otherwise the handler answers 403 with a JSON error
body and never contacts the upstream. -/
theorem c5_allowlist (env : Option String) (req : Request)
    (fr : Except String Upstream) (u : String)
    (hm : req.method ≠ "OPTIONS") (hq : req.queryUrl = some u)
    (hne : u ≠ "") (hv : isHttpUrl u = true) :
    ((env = none ∨ env = some "") → (handler env req fr).2.isSome = true)
    ∧ (∀ a, env = some a → a ≠ "" →
      ((∃ e ∈ splitOnComma a, asciiLower (trimWs e) = asciiLower (hostOf u)) →
        (handler env req fr).2.isSome = true)
      ∧ (¬ (∃ e ∈ splitOnComma a, asciiLower (trimWs e) = asciiLower (hostOf u)) →
        (handler env req fr).1.status = 403
        ∧ isErrorJson (handler env req fr).1.body = true
        ∧ (handler env req fr).2 = none)) := by
  obtain ⟨m, qu, qh, hs, bd⟩ := req
  simp only at hm hq
  subst hq
  refine ⟨?_, ?_⟩
  · intro henv
    have ha : allowedByEnv env u = true := by
      cases henv with
      | inl h => rw [h]; rfl
      | inr h => rw [h]; rfl
    cases fr with
    | ok up =>
      rw [handler_fetch_ok env m u qh hs bd up hm hne hv ha]
      rfl
    | error msg =>
      rw [handler_fetch_err env m u qh hs bd msg hm hne hv ha]
      rfl
  · intro a ha hane
    subst ha
    constructor
    · intro hex
      have hallow : allowedByEnv (some a) u = true :=
        (allowedByEnv_some_iff a u hane).mpr hex
      cases fr with
      | ok up =>
        rw [handler_fetch_ok (some a) m u qh hs bd up hm hne hv hallow]
        rfl
      | error msg =>
        rw [handler_fetch_err (some a) m u qh hs bd msg hm hne hv hallow]
        rfl
    · intro hnex
      have hallow : allowedByEnv (some a) u = false := by
        cases hb : allowedByEnv (some a) u
        · rfl
        · exact absurd ((allowedByEnv_some_iff a u hane).mp hb) hnex
      rw [handler_forbidden (some a) m u qh hs bd fr hm hne hv hallow]
      exact ⟨rfl, rfl, rfl⟩

/-- C5 witness: with ALLOWLIST "api.example.com" a request for
https://other.com/x is answered 403 with no upstream call, while
https://api.example.com/data is relayed; with no ALLOWLIST every host is
permitted. -/
theorem c5_witness :
    (handler (some "api.example.com")
      { method := "GET", queryUrl := some "https://other.com/x",
        queryH64 := none, headers := [], body := [] }
      (Except.error "e")).1.status = 403
    ∧ (handler (some "api.example.com")
      { method := "GET", queryUrl := some "https://other.com/x",
        queryH64 := none, headers := [], body := [] }
      (Except.error "e")).2 = none
    ∧ (handler (some "api.example.com")
      { method := "GET", queryUrl := some "https://api.example.com/data",
        queryH64 := none, headers := [], body := [] }
      (Except.error "e")).2.isSome = true
    ∧ (handler none
      { method := "GET", queryUrl := some "https://other.com/x",
        queryH64 := none, headers := [], body := [] }
      (Except.error "e")).2.isSome = true := by
  have h1 := c5_allowlist (some "api.example.com")
    { method := "GET", queryUrl := some "https://other.com/x",
      queryH64 := none, headers := [], body := [] }
    (Except.error "e") "https://other.com/x" (by decide) rfl (by decide) rfl
  have h2 := c5_allowlist (some "api.example.com")
    { method := "GET", queryUrl := some "https://api.example.com/data",
      queryH64 := none, headers := [], body := [] }
    (Except.error "e") "https://api.example.com/data" (by decide) rfl (by decide) rfl
  have h3 := c5_allowlist none
    { method := "GET", queryUrl := some "https://other.com/x",
      queryH64 := none, headers := [], body := [] }
    (Except.error "e") "https://other.com/x" (by decide) rfl (by decide) rfl
  refine ⟨((h1.2 "api.example.com" rfl (by decide)).2 (by decide)).1,
    ((h1.2 "api.example.com" rfl (by decide)).2 (by decide)).2.2,
    (h2.2 "api.example.com" rfl (by decide)).1 (by decide),
    h3.1 (Or.inl rfl)⟩

/-- C6: for every non-OPTIONS request that passes validation, a failing
upstream fetch yields status 502 with the JSON body
containing error "Upstream error" and detail set to the failure message,
plus the cross-origin header set; and every request that fails
validation (missing url, invalid url, or disallowed host) issues no
upstream call at all. -/
theorem c6_upstream_failure (env : Option String) (req : Request)
    (fr : Except String Upstream) (hm : req.method ≠ "OPTIONS") :
    (∀ u msg, req.queryUrl = some u → u ≠ "" → isHttpUrl u = true →
      allowedByEnv env u = true → fr = Except.error msg →
      (handler env req fr).1.status = 502
      ∧ (handler env req fr).1.headers
          = ("Content-Type", "application/json") :: corsHeaders (originOf req.headers)
      ∧ (handler env req fr).1.body = ResBody.jsonBody (Json.obj
          [("error", Json.str "Upstream error"), ("detail", Json.str msg)])
      ∧ (handler env req fr).2.isSome = true)
    ∧ ((req.queryUrl = none ∨ ∃ u, req.queryUrl = some u ∧
        (u = "" ∨ isHttpUrl u = false ∨
          (isHttpUrl u = true ∧ allowedByEnv env u = false))) →
      (handler env req fr).2 = none) := by
  obtain ⟨m, qu, qh, hs, bd⟩ := req
  simp only at hm
  refine ⟨?_, ?_⟩
  · intro u msg hq hne hv ha hfr
    simp only at hq
    subst hq
    subst hfr
    rw [handler_fetch_err env m u qh hs bd msg hm hne hv ha]
    exact ⟨rfl, rfl, rfl, rfl⟩
  · intro hbad
    simp only at hbad
    rcases hbad with hq | ⟨u, hq, hcase⟩
    · subst hq
      rw [handler_missing env m qh hs bd fr hm]
    · subst hq
      rcases hcase with h1 | h2 | h3
      · subst h1
        rw [handler_empty_url env m qh hs bd fr hm]
      · by_cases hu : u = ""
        · subst hu
          rw [handler_empty_url env m qh hs bd fr hm]
        · rw [handler_invalid_url env m u qh hs bd fr hm hu h2]
      · by_cases hu : u = ""
        · subst hu
          rw [handler_empty_url env m qh hs bd fr hm]
        · rw [handler_forbidden env m u qh hs bd fr hm hu h3.1 h3.2]

/-- C6 witness: a valid request against a dead upstream gets the
structured 502 with the failure message, and a disallowed host issues no
fetch. -/
theorem c6_witness :
    (handler none
      { method := "GET", queryUrl := some "https://api.example.com/data",
        queryH64 := none, headers := [], body := [] }
      (Except.error "getaddrinfo ENOTFOUND api.example.com")).1.status = 502
    ∧ (handler none
      { method := "GET", queryUrl := some "https://api.example.com/data",
        queryH64 := none, headers := [], body := [] }
      (Except.error "getaddrinfo ENOTFOUND api.example.com")).1.body
      = ResBody.jsonBody (Json.obj [("error", Json.str "Upstream error"),
          ("detail", Json.str "getaddrinfo ENOTFOUND api.example.com")])
    ∧ (handler (some "api.example.com")
      { method := "GET", queryUrl := some "https://other.com/x",
        queryH64 := none, headers := [], body := [] }
      (Except.error "e")).2 = none := by
  have h1 := c6_upstream_failure none
    { method := "GET", queryUrl := some "https://api.example.com/data",
      queryH64 := none, headers := [], body := [] }
    (Except.error "getaddrinfo ENOTFOUND api.example.com") (by decide)
  have h2 := c6_upstream_failure (some "api.example.com")
    { method := "GET", queryUrl := some "https://other.com/x",
      queryH64 := none, headers := [], body := [] }
    (Except.error "e") (by decide)
  refine ⟨(h1.1 "https://api.example.com/data" "getaddrinfo ENOTFOUND api.example.com"
      rfl (by decide) rfl rfl rfl).1,
    (h1.1 "https://api.example.com/data" "getaddrinfo ENOTFOUND api.example.com"
      rfl (by decide) rfl rfl rfl).2.2.1,
    h2.2 (Or.inr ⟨"https://other.com/x", rfl, Or.inr (Or.inr ⟨rfl, rfl⟩)⟩)⟩

/-- C8: for every request that reaches the upstream call, methods GET
and HEAD attach no body to the outbound fetch even though the inbound
request carries a body stream, and every other method passes the inbound
body stream through unmodified. -/
theorem c8_body_forwarding (env : Option String) (req : Request)
    (fr : Except String Upstream) (u : String)
    (hm : req.method ≠ "OPTIONS") (hq : req.queryUrl = some u)
    (hne : u ≠ "") (hv : isHttpUrl u = true)
    (ha : allowedByEnv env u = true) :
    ∃ init, (handler env req fr).2 = some (u, init)
    ∧ init.method = req.method
    ∧ ((req.method = "GET" ∨ req.method = "HEAD") → init.body = none)
    ∧ (¬ (req.method = "GET" ∨ req.method = "HEAD") →
        init.body = some req.body) := by
  obtain ⟨m, qu, qh, hs, bd⟩ := req
  simp only at hm hq
  subst hq
  simp only
  cases fr with
  | ok up =>
    rw [handler_fetch_ok env m u qh hs bd up hm hne hv ha]
    refine ⟨_, rfl, rfl, ?_, ?_⟩
    · intro hc
      simp only
      rw [if_pos hc]
    · intro hc
      simp only
      rw [if_neg hc]
  | error msg =>
    rw [handler_fetch_err env m u qh hs bd msg hm hne hv ha]
    refine ⟨_, rfl, rfl, ?_, ?_⟩
    · intro hc
      simp only
      rw [if_pos hc]
    · intro hc
      simp only
      rw [if_neg hc]

/-- C8 witness: a GET with a non-empty inbound body sends no body
upstream; a POST forwards the same body stream. -/
theorem c8_witness :
    (∃ init, (handler none
      { method := "GET", queryUrl := some "https://api.example.com/data",
        queryH64 := none, headers := [], body := [7, 8] }
      (Except.error "e")).2 = some ("https://api.example.com/data", init)
      ∧ init.body = none)
    ∧ (∃ init, (handler none
      { method := "POST", queryUrl := some "https://api.example.com/data",
        queryH64 := none, headers := [], body := [7, 8] }
      (Except.error "e")).2 = some ("https://api.example.com/data", init)
      ∧ init.body = some [7, 8]) := by
  have h1 := c8_body_forwarding none
    { method := "GET", queryUrl := some "https://api.example.com/data",
      queryH64 := none, headers := [], body := [7, 8] }
    (Except.error "e") "https://api.example.com/data" (by decide) rfl (by decide) rfl rfl
  have h2 := c8_body_forwarding none
    { method := "POST", queryUrl := some "https://api.example.com/data",
      queryH64 := none, headers := [], body := [7, 8] }
    (Except.error "e") "https://api.example.com/data" (by decide) rfl (by decide) rfl rfl
  obtain ⟨init1, hi1, _, hb1, _⟩ := h1
  obtain ⟨init2, hi2, _, _, hb2⟩ := h2
  exact ⟨⟨init1, hi1, hb1 (Or.inl rfl)⟩, ⟨init2, hi2, hb2 (by decide)⟩⟩

/-- C2 (amended): a relayed response uses the upstream status code
verbatim and streams the upstream body; its header object is the
upstream headers minus hop-by-hop names (case-insensitive) with the five
cross-origin values stored under their mixed-case names, and
Access-Control-Expose-Headers is set to the default
"Content-Type, Content-Length, ETag" unless the copied object already
contains a non-empty value under exactly the mixed-case key
"Access-Control-Expose-Headers"; an upstream expose-headers entry under
any other capitalization (such as the all-lowercase names the fetch
Headers iteration produces) is kept in the object but does not suppress
the default. -/
theorem c2_relay_response (env : Option String) (req : Request)
    (fr : Except String Upstream) (u : String) (up : Upstream)
    (hm : req.method ≠ "OPTIONS") (hq : req.queryUrl = some u)
    (hne : u ≠ "") (hv : isHttpUrl u = true) (ha : allowedByEnv env u = true)
    (hok : fr = Except.ok up) (hnd : keysNodup up.headers = true) :
    (handler env req fr).1.status = up.status
    ∧ (handler env req fr).1.body
      = (match up.body with
         | some b => ResBody.stream b
         | none => ResBody.empty)
    ∧ ∀ q, hGet (handler env req fr).1.headers q =
        (if q = "Access-Control-Expose-Headers" then
          some (match hGet up.headers "Access-Control-Expose-Headers" with
                | some v => if v = "" then exposeDefault else v
                | none => exposeDefault)
        else if q = "Access-Control-Allow-Origin" then some (originOf req.headers)
        else if q = "Access-Control-Allow-Credentials" then some "false"
        else if q = "Access-Control-Allow-Methods" then
          some "GET,POST,PUT,PATCH,DELETE,OPTIONS"
        else if q = "Access-Control-Allow-Headers" then
          some "Content-Type, Authorization, X-Requested-With, X-CSRF-Token, Accept, Origin"
        else if q = "Access-Control-Max-Age" then some "86400"
        else if HOP_BY_HOP.contains (asciiLower q) then none
        else hGet up.headers q) := by
  obtain ⟨m, qu, qh, hs, bd⟩ := req
  simp only at hm hq
  subst hq
  subst hok
  rw [handler_fetch_ok env m u qh hs bd up hm hne hv ha]
  exact ⟨rfl, rfl, fun q => hGet_relayHeaders up.headers (originOf hs) q hnd⟩

/-- C2 counterexample: the upstream set an Access-Control-Expose-Headers
value (under the all-lowercase name that fetch header iteration
produces), yet the relayed response carries the default value under the
mixed-case key besides the upstream entry — the claim's "only if the
upstream did not already set a value" is violated, because the JS ||
lookup uses the exact mixed-case key. -/
theorem c2_counterexample :
    hGet ({ status := 200,
            headers := [("access-control-expose-headers", "X-Request-Id")],
            body := none } : Upstream).headers "access-control-expose-headers"
      = some "X-Request-Id"
    ∧ hGet ((handler none
        { method := "GET", queryUrl := some "https://api.example.com/data",
          queryH64 := none, headers := [], body := [] }
        (Except.ok
          { status := 200,
            headers := [("access-control-expose-headers", "X-Request-Id")],
            body := none })).1).headers "Access-Control-Expose-Headers"
      = some "Content-Type, Content-Length, ETag"
    ∧ hGet ((handler none
        { method := "GET", queryUrl := some "https://api.example.com/data",
          queryH64 := none, headers := [], body := [] }
        (Except.ok
          { status := 200,
            headers := [("access-control-expose-headers", "X-Request-Id")],
            body := none })).1).headers "access-control-expose-headers"
      = some "X-Request-Id" := ⟨rfl, rfl, rfl⟩

/-- C2 witness: a concrete relayed response keeps the upstream status
418, streams the upstream body, keeps a plain upstream header, drops a
hop-by-hop header and carries Access-Control-Allow-Origin "*". -/
theorem c2_witness :
    (handler none
      { method := "GET", queryUrl := some "https://api.example.com/data",
        queryH64 := none, headers := [], body := [] }
      (Except.ok
        { status := 418,
          headers := [("content-type", "text/plain"), ("transfer-encoding", "chunked")],
          body := some [104, 105] })).1.status = 418
    ∧ (handler none
      { method := "GET", queryUrl := some "https://api.example.com/data",
        queryH64 := none, headers := [], body := [] }
      (Except.ok
        { status := 418,
          headers := [("content-type", "text/plain"), ("transfer-encoding", "chunked")],
          body := some [104, 105] })).1.body = ResBody.stream [104, 105]
    ∧ hGet ((handler none
      { method := "GET", queryUrl := some "https://api.example.com/data",
        queryH64 := none, headers := [], body := [] }
      (Except.ok
        { status := 418,
          headers := [("content-type", "text/plain"), ("transfer-encoding", "chunked")],
          body := some [104, 105] })).1).headers "content-type" = some "text/plain"
    ∧ hGet ((handler none
      { method := "GET", queryUrl := some "https://api.example.com/data",
        queryH64 := none, headers := [], body := [] }
      (Except.ok
        { status := 418,
          headers := [("content-type", "text/plain"), ("transfer-encoding", "chunked")],
          body := some [104, 105] })).1).headers "transfer-encoding" = none
    ∧ hGet ((handler none
      { method := "GET", queryUrl := some "https://api.example.com/data",
        queryH64 := none, headers := [], body := [] }
      (Except.ok
        { status := 418,
          headers := [("content-type", "text/plain"), ("transfer-encoding", "chunked")],
          body := some [104, 105] })).1).headers "Access-Control-Allow-Origin"
      = some "*" := by
  have h := c2_relay_response none
    { method := "GET", queryUrl := some "https://api.example.com/data",
      queryH64 := none, headers := [], body := [] }
    (Except.ok
      { status := 418,
        headers := [("content-type", "text/plain"), ("transfer-encoding", "chunked")],
        body := some [104, 105] })
    "https://api.example.com/data"
    { status := 418,
      headers := [("content-type", "text/plain"), ("transfer-encoding", "chunked")],
      body := some [104, 105] }
    (by decide) rfl (by decide) rfl rfl rfl (by decide)
  exact ⟨h.1, h.2.1.trans rfl, (h.2.2 "content-type").trans rfl,
    (h.2.2 "transfer-encoding").trans rfl,
    (h.2.2 "Access-Control-Allow-Origin").trans rfl⟩

/-- C3 (amended): for every non-OPTIONS request that passes validation
and whose h64 decodes to an Extra Header Set, the outbound header object
binds each key as follows: an extra entry wins under exact,
case-sensitive name match (an extra entry whose name differs in case
from an inbound name — inbound names being the lowercase forms the Node
runtime delivers — is added as a separate binding and does not override
the inbound one); otherwise user-agent is the inbound user-agent when
present and non-empty and the default otherwise (JS || also replaces an
empty one); otherwise the exact key origin is unbound; otherwise
hop-by-hop names (case-insensitive) are unbound; otherwise the inbound
binding is passed through. -/
theorem c3_upstream_header_build (env : Option String) (req : Request)
    (fr : Except String Upstream) (u : String) (ex : Obj)
    (hm : req.method ≠ "OPTIONS") (hq : req.queryUrl = some u)
    (hne : u ≠ "") (hv : isHttpUrl u = true) (ha : allowedByEnv env u = true)
    (hex : extraOf req.queryH64 = some ex) (hndx : keysNodup ex = true)
    (hnd : keysNodup req.headers = true) :
    ∃ init, (handler env req fr).2 = some (u, init)
    ∧ init.headers = buildUpstreamHeaders req.headers (some ex)
    ∧ ∀ q, hGet init.headers q =
        (match hGet ex q with
         | some v => some v
         | none =>
           if q = "user-agent" then
             some (match hGet req.headers "user-agent" with
                   | some v => if v = "" then defaultUA else v
                   | none => defaultUA)
           else if q = "origin" then none
           else if HOP_BY_HOP.contains (asciiLower q) then none
           else hGet req.headers q) := by
  obtain ⟨m, qu, qh, hs, bd⟩ := req
  simp only at hm hq hex
  subst hq
  have hkey : ∀ q, hGet (buildUpstreamHeaders hs (some ex)) q =
      (match hGet ex q with
       | some v => some v
       | none =>
         if q = "user-agent" then
           some (match hGet hs "user-agent" with
                 | some v => if v = "" then defaultUA else v
                 | none => defaultUA)
         else if q = "origin" then none
         else if HOP_BY_HOP.contains (asciiLower q) then none
         else hGet hs q) := by
    intro q
    rw [hGet_buildUpstreamHeaders hs ex q hndx]
    cases hge : hGet ex q
    · rw [hGet_preExtraHeaders hs q hnd]
    · rfl
  cases fr with
  | ok up =>
    rw [handler_fetch_ok env m u qh hs bd up hm hne hv ha]
    exact ⟨_, rfl, by rw [hex], fun q => by rw [hex]; exact hkey q⟩
  | error msg =>
    rw [handler_fetch_err env m u qh hs bd msg hm hne hv ha]
    exact ⟨_, rfl, by rw [hex], fun q => by rw [hex]; exact hkey q⟩

/-- C3 counterexample: with h64 encoding the JSON object with key
Authorization (capital A) and value "Bearer abc", and an inbound
(lowercase) authorization header plus an empty inbound user-agent, the
outbound object still binds authorization to the inbound value — the
extra entry did not override it, contrary to the claim's "regardless of
the case of its name" — and binds user-agent to the default even though
a user-agent header was present (it was empty and JS || replaced it). -/
theorem c3_counterexample :
    ((handler none
      { method := "GET", queryUrl := some "https://api.example.com/data",
        queryH64 := some "eyJBdXRob3JpemF0aW9uIjoiQmVhcmVyIGFiYyJ9",
        headers := [("authorization", "tok-inbound"), ("user-agent", "")],
        body := [] } (Except.error "boom")).2.map
      (fun c => hGet c.2.headers "authorization")) = some (some "tok-inbound")
    ∧ ((handler none
      { method := "GET", queryUrl := some "https://api.example.com/data",
        queryH64 := some "eyJBdXRob3JpemF0aW9uIjoiQmVhcmVyIGFiYyJ9",
        headers := [("authorization", "tok-inbound"), ("user-agent", "")],
        body := [] } (Except.error "boom")).2.map
      (fun c => hGet c.2.headers "Authorization")) = some (some "Bearer abc")
    ∧ ((handler none
      { method := "GET", queryUrl := some "https://api.example.com/data",
        queryH64 := some "eyJBdXRob3JpemF0aW9uIjoiQmVhcmVyIGFiYyJ9",
        headers := [("authorization", "tok-inbound"), ("user-agent", "")],
        body := [] } (Except.error "boom")).2.map
      (fun c => hGet c.2.headers "user-agent"))
      = some (some "Mozilla/5.0 (CORS-Proxy on Vercel)") := ⟨rfl, rfl, rfl⟩

/-- C3 witness: with h64 encoding Authorization "Bearer abc", an inbound
connection header is dropped, the extra Authorization entry is bound,
origin is unbound and a default user-agent is injected. -/
theorem c3_witness :
    ∃ init, (handler none
      { method := "GET", queryUrl := some "https://api.example.com/data",
        queryH64 := some "eyJBdXRob3JpemF0aW9uIjoiQmVhcmVyIGFiYyJ9",
        headers := [("origin", "http://client.example"), ("connection", "keep-alive")],
        body := [] } (Except.error "boom")).2
      = some ("https://api.example.com/data", init)
    ∧ hGet init.headers "Authorization" = some "Bearer abc"
    ∧ hGet init.headers "connection" = none
    ∧ hGet init.headers "origin" = none
    ∧ hGet init.headers "user-agent" = some "Mozilla/5.0 (CORS-Proxy on Vercel)" := by
  have h := c3_upstream_header_build none
    { method := "GET", queryUrl := some "https://api.example.com/data",
      queryH64 := some "eyJBdXRob3JpemF0aW9uIjoiQmVhcmVyIGFiYyJ9",
      headers := [("origin", "http://client.example"), ("connection", "keep-alive")],
      body := [] } (Except.error "boom") "https://api.example.com/data"
    [("Authorization", "Bearer abc")]
    (by decide) rfl (by decide) rfl rfl rfl (by decide) (by decide)
  obtain ⟨init, h1, _, h3⟩ := h
  exact ⟨init, h1, (h3 "Authorization").trans rfl, (h3 "connection").trans rfl,
    (h3 "origin").trans rfl, (h3 "user-agent").trans rfl⟩

/-- C7: for every h64 value on a validated non-OPTIONS request, the
decode chain never produces a user-visible error: the response is the
same as for the h64-less request, an upstream call is always issued, a
decoded result is always a non-null object (JS arrays included), the
decoded entries are used as the Extra Header Set exactly when the chain
succeeds, and on any failure (or an empty, falsy h64) the outbound
request is identical to the h64-less one. -/
theorem c7_h64_decode_is_total (env : Option String) (req : Request)
    (fr : Except String Upstream) (u h64 : String)
    (hm : req.method ≠ "OPTIONS") (hq : req.queryUrl = some u)
    (hne : u ≠ "") (hv : isHttpUrl u = true) (ha : allowedByEnv env u = true)
    (h64p : req.queryH64 = some h64) :
    (handler env req fr).1 = (handler env { req with queryH64 := none } fr).1
    ∧ (handler env req fr).2.isSome = true
    ∧ (∀ j, decodeHeaderBase64 h64 = some j → isObjLike j = true)
    ∧ (∀ j, jsonParse (b64ToUtf8 h64) = some j → isObjLike j = true →
        decodeHeaderBase64 h64 = some j)
    ∧ (∀ j, decodeHeaderBase64 h64 = some j → h64 ≠ "" →
        (handler env req fr).2 = some (u,
          { method := req.method,
            headers := buildUpstreamHeaders req.headers (some (jsEntries j)),
            body := if req.method = "GET" ∨ req.method = "HEAD" then none
                    else some req.body }))
    ∧ ((decodeHeaderBase64 h64 = none ∨ h64 = "") →
        (handler env req fr).2 = (handler env { req with queryH64 := none } fr).2) := by
  obtain ⟨m, qu, qh, hs, bd⟩ := req
  simp only at hm hq h64p
  subst hq
  subst h64p
  refine ⟨?_, ?_, ?_, ?_, ?_, ?_⟩
  · cases fr with
    | ok up =>
      rw [handler_fetch_ok env m u (some h64) hs bd up hm hne hv ha,
        handler_fetch_ok env m u none hs bd up hm hne hv ha]
    | error msg =>
      rw [handler_fetch_err env m u (some h64) hs bd msg hm hne hv ha,
        handler_fetch_err env m u none hs bd msg hm hne hv ha]
  · cases fr with
    | ok up =>
      rw [handler_fetch_ok env m u (some h64) hs bd up hm hne hv ha]
      rfl
    | error msg =>
      rw [handler_fetch_err env m u (some h64) hs bd msg hm hne hv ha]
      rfl
  · intro j hdec
    rw [decodeHeaderBase64] at hdec
    cases hp : jsonParse (b64ToUtf8 h64) with
    | none => rw [hp] at hdec; exact Option.noConfusion hdec
    | some j0 =>
      rw [hp] at hdec
      have hdec2 : (if isObjLike j0 = true then some j0 else none) = some j := hdec
      cases ho : isObjLike j0 with
      | false =>
        rw [ho, if_neg (by simp)] at hdec2
        exact Option.noConfusion hdec2
      | true =>
        rw [ho, if_pos rfl] at hdec2
        injection hdec2 with hj
        rw [← hj]
        exact ho
  · intro j hp ho
    rw [decodeHeaderBase64, hp]
    show (if isObjLike j = true then some j else none) = some j
    exact if_pos ho
  · intro j hdec hne64
    have hx : extraOf (some h64) = some (jsEntries j) := by
      simp only [extraOf, if_neg hne64, hdec]
    cases fr with
    | ok up =>
      rw [handler_fetch_ok env m u (some h64) hs bd up hm hne hv ha, hx]
    | error msg =>
      rw [handler_fetch_err env m u (some h64) hs bd msg hm hne hv ha, hx]
  · intro hfail
    have hx : extraOf (some h64) = none := by
      rcases hfail with hdec | hemp
      · by_cases hemp : h64 = ""
        · simp only [extraOf, if_pos hemp]
        · simp only [extraOf, if_neg hemp, hdec]
      · simp only [extraOf, if_pos hemp]
    cases fr with
    | ok up =>
      rw [handler_fetch_ok env m u (some h64) hs bd up hm hne hv ha,
        handler_fetch_ok env m u none hs bd up hm hne hv ha, hx]
      rfl
    | error msg =>
      rw [handler_fetch_err env m u (some h64) hs bd msg hm hne hv ha,
        handler_fetch_err env m u none hs bd msg hm hne hv ha, hx]
      rfl

/-- C7 witness: an invalid h64 ("!!!" decodes to bytes that are not
JSON) leaves response and outbound request identical to the h64-less
request, while a valid h64 is decoded and overlaid; neither produces an
error response. -/
theorem c7_witness :
    (handler none
      { method := "GET", queryUrl := some "https://api.example.com/data",
        queryH64 := some "!!!", headers := [], body := [] }
      (Except.error "boom")).1
      = (handler none
      { method := "GET", queryUrl := some "https://api.example.com/data",
        queryH64 := none, headers := [], body := [] }
      (Except.error "boom")).1
    ∧ (handler none
      { method := "GET", queryUrl := some "https://api.example.com/data",
        queryH64 := some "!!!", headers := [], body := [] }
      (Except.error "boom")).2
      = (handler none
      { method := "GET", queryUrl := some "https://api.example.com/data",
        queryH64 := none, headers := [], body := [] }
      (Except.error "boom")).2
    ∧ (handler none
      { method := "GET", queryUrl := some "https://api.example.com/data",
        queryH64 := some "eyJBdXRob3JpemF0aW9uIjoiQmVhcmVyIGFiYyJ9",
        headers := [], body := [] }
      (Except.error "boom")).2
      = some ("https://api.example.com/data",
        { method := "GET",
          headers := buildUpstreamHeaders []
            (some [("Authorization", "Bearer abc")]),
          body := none }) := by
  have h1 := c7_h64_decode_is_total none
    { method := "GET", queryUrl := some "https://api.example.com/data",
      queryH64 := some "!!!", headers := [], body := [] }
    (Except.error "boom") "https://api.example.com/data" "!!!"
    (by decide) rfl (by decide) rfl rfl rfl
  have h2 := c7_h64_decode_is_total none
    { method := "GET", queryUrl := some "https://api.example.com/data",
      queryH64 := some "eyJBdXRob3JpemF0aW9uIjoiQmVhcmVyIGFiYyJ9",
      headers := [], body := [] }
    (Except.error "boom") "https://api.example.com/data"
    "eyJBdXRob3JpemF0aW9uIjoiQmVhcmVyIGFiYyJ9"
    (by decide) rfl (by decide) rfl rfl rfl
  refine ⟨h1.1, h1.2.2.2.2.2 (Or.inl rfl), ?_⟩
  have h5 := h2.2.2.2.2.1 (Json.obj [("Authorization", Json.str "Bearer abc")])
    rfl (by decide)
  exact h5.trans rfl

/-- C10: when h64 decodes to an object that binds "host" or "origin"
(exact lowercase names), the outbound upstream header object carries
that binding with the supplied value — the extra-header overlay runs
after hop-by-hop filtering and the origin deletion, so it reintroduces
headers the filtering step removed. -/
theorem c10_extra_reintroduces_filtered (env : Option String) (req : Request)
    (fr : Except String Upstream) (u h64 : String) (j : Json) (v w : String)
    (hm : req.method ≠ "OPTIONS") (hq : req.queryUrl = some u)
    (hne : u ≠ "") (hv : isHttpUrl u = true) (ha : allowedByEnv env u = true)
    (h64p : req.queryH64 = some h64) (hne64 : h64 ≠ "")
    (hdec : decodeHeaderBase64 h64 = some j)
    (hndx : keysNodup (jsEntries j) = true) :
    (hGet (jsEntries j) "host" = some v →
      ∃ init, (handler env req fr).2 = some (u, init)
        ∧ hGet init.headers "host" = some v)
    ∧ (hGet (jsEntries j) "origin" = some w →
      ∃ init, (handler env req fr).2 = some (u, init)
        ∧ hGet init.headers "origin" = some w) := by
  obtain ⟨m, qu, qh, hs, bd⟩ := req
  simp only at hm hq h64p
  subst hq
  subst h64p
  have hx : extraOf (some h64) = some (jsEntries j) := by
    simp only [extraOf, if_neg hne64, hdec]
  constructor
  · intro hhost
    cases fr with
    | ok up =>
      rw [handler_fetch_ok env m u (some h64) hs bd up hm hne hv ha]
      refine ⟨_, rfl, ?_⟩
      show hGet (buildUpstreamHeaders hs (extraOf (some h64))) "host" = some v
      rw [hx, hGet_buildUpstreamHeaders hs (jsEntries j) "host" hndx, hhost]
    | error msg =>
      rw [handler_fetch_err env m u (some h64) hs bd msg hm hne hv ha]
      refine ⟨_, rfl, ?_⟩
      show hGet (buildUpstreamHeaders hs (extraOf (some h64))) "host" = some v
      rw [hx, hGet_buildUpstreamHeaders hs (jsEntries j) "host" hndx, hhost]
  · intro horigin
    cases fr with
    | ok up =>
      rw [handler_fetch_ok env m u (some h64) hs bd up hm hne hv ha]
      refine ⟨_, rfl, ?_⟩
      show hGet (buildUpstreamHeaders hs (extraOf (some h64))) "origin" = some w
      rw [hx, hGet_buildUpstreamHeaders hs (jsEntries j) "origin" hndx, horigin]
    | error msg =>
      rw [handler_fetch_err env m u (some h64) hs bd msg hm hne hv ha]
      refine ⟨_, rfl, ?_⟩
      show hGet (buildUpstreamHeaders hs (extraOf (some h64))) "origin" = some w
      rw [hx, hGet_buildUpstreamHeaders hs (jsEntries j) "origin" hndx, horigin]

/-- C10 witness: h64 encoding the JSON object with host "evil.example"
and origin "http://evil" puts both bindings into the outbound headers,
although the build step filters host and deletes origin. -/
theorem c10_witness :
    (∃ init, (handler none
      { method := "GET", queryUrl := some "https://api.example.com/data",
        queryH64 := some "eyJob3N0IjoiZXZpbC5leGFtcGxlIiwib3JpZ2luIjoiaHR0cDovL2V2aWwifQ==",
        headers := [("host", "relay.example"), ("origin", "http://client.example")],
        body := [] } (Except.error "boom")).2
      = some ("https://api.example.com/data", init)
      ∧ hGet init.headers "host" = some "evil.example")
    ∧ (∃ init, (handler none
      { method := "GET", queryUrl := some "https://api.example.com/data",
        queryH64 := some "eyJob3N0IjoiZXZpbC5leGFtcGxlIiwib3JpZ2luIjoiaHR0cDovL2V2aWwifQ==",
        headers := [("host", "relay.example"), ("origin", "http://client.example")],
        body := [] } (Except.error "boom")).2
      = some ("https://api.example.com/data", init)
      ∧ hGet init.headers "origin" = some "http://evil") := by
  have h := c10_extra_reintroduces_filtered none
    { method := "GET", queryUrl := some "https://api.example.com/data",
      queryH64 := some "eyJob3N0IjoiZXZpbC5leGFtcGxlIiwib3JpZ2luIjoiaHR0cDovL2V2aWwifQ==",
      headers := [("host", "relay.example"), ("origin", "http://client.example")],
      body := [] } (Except.error "boom") "https://api.example.com/data"
    "eyJob3N0IjoiZXZpbC5leGFtcGxlIiwib3JpZ2luIjoiaHR0cDovL2V2aWwifQ=="
    (Json.obj [("host", Json.str "evil.example"),
               ("origin", Json.str "http://evil")])
    "evil.example" "http://evil"
    (by decide) rfl (by decide) rfl rfl rfl (by decide) rfl (by decide)
  exact ⟨h.1 rfl, h.2 rfl⟩
